import Mathlib

/-!
# Verification of the Echonate Phase 3 epistemic engine core

Shallow embedding of `src/echonate_phase3_core.py`: the constitutional bounds,
the audit trail, the dependency graph (cycle detection, upstream closure,
independence scoring), truth vectors, and the epistemic engine operations
(`create_truth_vector`, `corroborate`, `flag_contradiction`,
`validate_wealth_opportunity`).

Modelling conventions:
* Python `float` values are modelled as `ℚ` (the constants `0.2`, `0.7`, ... are
  exact decimal literals in the source; no claim under consideration depends on
  IEEE-754 rounding).
* Python `dict` (insertion-ordered, update-in-place) is modelled as an
  association list `List (String × α)` with `lookupA` / `updateA`.
* Python `set` of strings is modelled as the canonically sorted,
  duplicate-free `List String` of its elements (`insertS` is `set.add`,
  `List.length` is `len`, `interS` is intersection); a set has no observable
  order, so the sorted list is a faithful unique representative, and the
  source only ever iterates sets through `sorted(...)`, which on the
  canonical representative is the list itself. String comparison `strLt` is
  Python's code-point lexicographic `<`.
* `datetime.utcnow()` timestamps are ambient wall-clock nondeterminism; no
  claim mentions them, so the `timestamp` fields are omitted from the records.
* Exceptions are modelled with `Except`: every fallible operation returns its
  `Except` result *and* the post-call state, because Python mutates objects in
  place before `_enforce_invariants` can raise, so the post-raise state is
  observable and must be modelled faithfully.
-/

set_option maxHeartbeats 1000000
set_option maxRecDepth 10000

/-- `CONSTITUTION["epistemic_invariants"]["confidence_range"] = (0.0, 1.0)`. -/
def confidence_range : ℚ × ℚ := (0, 1)

/-- `CONSTITUTION["epistemic_invariants"]["contradiction_range"] = (0.0, 1.0)`. -/
def contradiction_range : ℚ × ℚ := (0, 1)

/-- `CONSTITUTION["epistemic_invariants"]["max_sources"] = 1024`. -/
def max_sources : Nat := 1024

/-- The `ConstitutionalViolation` exception; the Python class carries a
formatted message string, modelled here by a structured payload holding the
offending field and value of each message the source formats. -/
inductive ConstitutionalViolation where
  | confidenceOutOfRange (value : ℚ)
  | contradictionOutOfRange (value : ℚ)
  | tooManySources (count : Nat)
  | dependencyCycle (source : String) (depends_on : List String)
  deriving DecidableEq

/-- `EpistemicState` enum from the source. -/
inductive EpistemicState where
  | RAW_OBSERVATION
  | CORROBORATED
  | DISPUTED
  | ANOMALOUS
  | ARCHETYPAL
  deriving DecidableEq

/-- One audit event per `AuditEventType` constructor, carrying exactly the
keyword payload the source passes to `AuditTrail.log` for that event
(timestamps omitted, see the module docstring). -/
inductive AuditRecord where
  | truth_created (content_hash source : String) (confidence : ℚ)
  | truth_corroborated (content_hash new_source : String)
      (independence confidence : ℚ) (epistemic_state : EpistemicState)
  | truth_contradiction (content_hash : String) (contradiction_score : ℚ)
      (epistemic_state : EpistemicState)
  | opportunity_validated (content_hash source : String) (confidence : ℚ)
      (epistemic_state : EpistemicState)
  | dependency_added (source : String) (depends_on : List String)
  | dependency_cycle_detected (source : String) (depends_on : List String)
  | engine_integration (agent_name : String)
  deriving DecidableEq

instance {ε α : Type} [DecidableEq ε] [DecidableEq α] : DecidableEq (Except ε α) :=
  fun a b =>
    match a, b with
    | .ok x, .ok y =>
        if h : x = y then .isTrue (by rw [h])
        else .isFalse (fun hc => h (Except.ok.inj hc))
    | .ok _, .error _ => .isFalse (fun hc => Except.noConfusion hc)
    | .error _, .ok _ => .isFalse (fun hc => Except.noConfusion hc)
    | .error x, .error y =>
        if h : x = y then .isTrue (by rw [h])
        else .isFalse (fun hc => h (Except.error.inj hc))

/-- Lexicographic strictly-less-than on character lists, by code point:
Python's string `<`. -/
def lexLt : List Char → List Char → Bool
  | [], [] => false
  | [], _ :: _ => true
  | _ :: _, [] => false
  | a :: as, b :: bs => if a < b then true else if a = b then lexLt as bs else false

/-- Python string comparison `a < b`. -/
def strLt (a b : String) : Bool := lexLt a.data b.data

/-- Insert into a (sorted) list in front of the first strictly larger element,
keeping duplicates: the inner step of Python's `sorted(...)` on a list. -/
def insertL (x : String) : List String → List String
  | [] => [x]
  | y :: ys => if strLt x y then x :: y :: ys else y :: insertL x ys

/-- Python `sorted(l)` for a list `l` (duplicates kept). -/
def sortL (l : List String) : List String := l.foldr insertL []

/-- Python `set.add(x)` on the canonical sorted-list representation: no-op if
the element is present, otherwise insert at its sorted position. -/
def insertS (x : String) (l : List String) : List String :=
  if x ∈ l then l else insertL x l

/-- Python `sorted(set(l))`: deduplicating sort. -/
def dedupSort (l : List String) : List String :=
  l.foldl (fun acc x => insertS x acc) []

/-- Python set intersection `s1.intersection(s2)` (as the sublist of elements
of `l1` that also occur in `l2`; only its emptiness and size are consumed). -/
def interS (l1 l2 : List String) : List String := l1.filter (fun x => x ∈ l2)

theorem mem_insertL (x a : String) (l : List String) :
    a ∈ insertL x l ↔ a = x ∨ a ∈ l := by
  induction l with
  | nil => simp [insertL]
  | cons y ys ih =>
      unfold insertL
      cases hxy : strLt x y
      · simp only [Bool.false_eq_true, if_false, List.mem_cons, ih]
        tauto
      · simp only [if_true, List.mem_cons]

theorem mem_insertS_self (x : String) (l : List String) : x ∈ insertS x l := by
  unfold insertS
  by_cases h : x ∈ l
  · simp [h]
  · simp [h, mem_insertL]

theorem insertS_idem (x : String) (l : List String) :
    insertS x (insertS x l) = insertS x l := by
  unfold insertS
  by_cases h : x ∈ l
  · simp [h]
  · simp [h, if_pos (by simpa [insertS, h] using mem_insertS_self x l)]

theorem length_insertL (x : String) (l : List String) :
    (insertL x l).length = l.length + 1 := by
  induction l with
  | nil => rfl
  | cons y ys ih =>
      unfold insertL
      by_cases h : strLt x y = true <;> simp [h, ih]

theorem length_insertS_le (x : String) (l : List String) :
    (insertS x l).length ≤ l.length + 1 := by
  unfold insertS
  by_cases h : x ∈ l
  · simp [h]
  · simp [h, length_insertL]

theorem length_insertS_of_not_mem (x : String) (l : List String) (h : x ∉ l) :
    (insertS x l).length = l.length + 1 := by
  simp [insertS, h, length_insertL]

theorem length_insertS_of_mem (x : String) (l : List String) (h : x ∈ l) :
    (insertS x l).length = l.length := by
  simp [insertS, h]

/-- Python `dict` lookup `d.get(k)` on the association-list model. -/
def lookupA {α : Type} : List (String × α) → String → Option α
  | [], _ => none
  | (k', v) :: rest, k => if k' = k then some v else lookupA rest k

/-- Python `dict` assignment `d[k] = v`: update in place if the key exists
(keeping its position), else append at the end (insertion order). -/
def updateA {α : Type} : List (String × α) → String → α → List (String × α)
  | [], k, v => [(k, v)]
  | (k', v') :: rest, k, v =>
      if k' = k then (k, v) :: rest else (k', v') :: updateA rest k v

@[simp] theorem lookupA_nil {α : Type} (k : String) :
    lookupA ([] : List (String × α)) k = none := rfl

@[simp] theorem lookupA_cons {α : Type} (k' k : String) (v : α) (rest : List (String × α)) :
    lookupA ((k', v) :: rest) k = if k' = k then some v else lookupA rest k := rfl

theorem lookupA_updateA {α : Type} (l : List (String × α)) (k : String) (v : α) (k' : String) :
    lookupA (updateA l k v) k' = if k = k' then some v else lookupA l k' := by
  induction l with
  | nil => simp [updateA, lookupA]
  | cons hd tl ih =>
      obtain ⟨kh, vh⟩ := hd
      by_cases h1 : kh = k
      · subst h1
        by_cases h2 : kh = k' <;> simp [updateA, lookupA, h2]
      · have hne : k ≠ kh := fun h => h1 h.symm
        by_cases h2 : kh = k'
        · subst h2
          simp [updateA, lookupA, h1, hne]
        · simp [updateA, lookupA, h1, h2, ih]

@[simp] theorem lookupA_updateA_self {α : Type} (l : List (String × α)) (k : String) (v : α) :
    lookupA (updateA l k v) k = some v := by
  simp [lookupA_updateA]

theorem lookupA_updateA_ne {α : Type} (l : List (String × α)) (k : String) (v : α)
    (k' : String) (h : k ≠ k') : lookupA (updateA l k v) k' = lookupA l k' := by
  simp [lookupA_updateA, h]

/-- `TruthVector` dataclass (timestamp omitted; `sources` is a Python set in
canonical sorted-list form; `metadata` is the string-to-string mapping
`{"content": content}` the engine builds). -/
structure TruthVector where
  content_hash : String
  sources : List String
  lineage : List String
  confidence : ℚ
  contradiction_score : ℚ
  epistemic_state : EpistemicState
  metadata : List (String × String)
  deriving DecidableEq

/-- `TruthVector._enforce_invariants`: checks confidence, then contradiction
score, then source count against the constitution, raising on the first
violated bound. -/
def enforce_invariants (tv : TruthVector) : Except ConstitutionalViolation Unit :=
  if ¬ (confidence_range.1 ≤ tv.confidence ∧ tv.confidence ≤ confidence_range.2) then
    .error (.confidenceOutOfRange tv.confidence)
  else if ¬ (contradiction_range.1 ≤ tv.contradiction_score ∧
      tv.contradiction_score ≤ contradiction_range.2) then
    .error (.contradictionOutOfRange tv.contradiction_score)
  else if max_sources < tv.sources.length then
    .error (.tooManySources tv.sources.length)
  else
    .ok ()

/-- A truth vector satisfying every constitution bound. -/
def TruthVector.bounded (tv : TruthVector) : Prop :=
  confidence_range.1 ≤ tv.confidence ∧ tv.confidence ≤ confidence_range.2 ∧
  contradiction_range.1 ≤ tv.contradiction_score ∧
  tv.contradiction_score ≤ contradiction_range.2 ∧
  tv.sources.length ≤ max_sources

theorem enforce_invariants_ok_iff (tv : TruthVector) :
    enforce_invariants tv = .ok () ↔ tv.bounded := by
  constructor
  · intro h
    unfold enforce_invariants at h
    split_ifs at h with h1 h2 h3
    exact ⟨h1.1, h1.2, h2.1, h2.2, not_lt.mp h3⟩
  · intro hb
    unfold enforce_invariants
    rw [if_neg (not_not_intro ⟨hb.1, hb.2.1⟩),
      if_neg (not_not_intro ⟨hb.2.2.1, hb.2.2.2.1⟩),
      if_neg (not_lt.mpr hb.2.2.2.2)]

theorem enforce_invariants_too_many (tv : TruthVector)
    (h1 : confidence_range.1 ≤ tv.confidence) (h2 : tv.confidence ≤ confidence_range.2)
    (h3 : contradiction_range.1 ≤ tv.contradiction_score)
    (h4 : tv.contradiction_score ≤ contradiction_range.2)
    (h5 : max_sources < tv.sources.length) :
    enforce_invariants tv = .error (.tooManySources tv.sources.length) := by
  unfold enforce_invariants
  rw [if_neg (not_not_intro ⟨h1, h2⟩), if_neg (not_not_intro ⟨h3, h4⟩), if_pos h5]

/-- `DependencyGraph`'s three mutable maps (its shared `AuditTrail` lives in
`EngineState.audit`, mirroring `EchonateEpistemicEngine.__init__` which passes
its own trail into `DependencyGraph(audit=self.audit)`). `upstream_map` and
`downstream_map` are `defaultdict(set)`, modelled by insert-on-first-touch in
`addToVal`. -/
structure DepGraph where
  graph : List (String × List String)
  upstream_map : List (String × List String)
  downstream_map : List (String × List String)
  deriving DecidableEq

/-- The empty graph built by `DependencyGraph.__init__`. -/
def emptyDepGraph : DepGraph := ⟨[], [], []⟩

/-- `DependencyGraph._ensure_node`: add the key with an empty edge set if absent. -/
def ensure_node (g : List (String × List String)) (node : String) :
    List (String × List String) :=
  if (lookupA g node).isSome then g else g ++ [(node, [])]

/-- `m[k].add(v)` on a `defaultdict(set)`: create the key on first touch. -/
def addToVal (m : List (String × List String)) (k v : String) :
    List (String × List String) :=
  match lookupA m k with
  | some s => updateA m k (insertS v s)
  | none => m ++ [(k, [v])]

/-- `self.graph.get(node, [])`. -/
def neighbors (g : DepGraph) (node : String) : List String :=
  (lookupA g.graph node).getD []

/-- The recursive `dfs` closure inside `DependencyGraph._detect_cycle`, with
the mutable `visited` and `stack` sets threaded explicitly. The `fuel`
argument bounds the recursion depth; every recursive call is on a node not yet
in `visited` and immediately inserts it, so the fuel `detect_cycle` supplies
can never run out and the `fuel = 0` branch is dead code. On the found-a-cycle
path Python returns early without executing `stack.remove(node)`, which the
embedding mirrors by returning `stack` unchanged on that path. -/
def dfsNode (g : DepGraph) : Nat → String → List String → List String →
    Bool × List String × List String
  | 0, _, visited, stack => (true, visited, stack)
  | fuel+1, node, visited, stack =>
      let visited' := insertS node visited
      let stack' := insertS node stack
      let r := (sortL (neighbors g node)).foldl
        (fun acc dep =>
          match acc with
          | (true, _, _) => acc
          | (false, v2, st2) =>
              if dep ∈ v2 then
                if dep ∈ st2 then (true, v2, st2) else (false, v2, st2)
              else dfsNode g fuel dep v2 st2)
        (false, visited', stack')
      match r with
      | (true, v2, st2) => (true, v2, st2)
      | (false, v2, st2) => (false, v2, st2.filter (fun a => a ≠ node))

/-- Fuel bound that the DFS and the upstream traversal can never exhaust:
one unit per graph key plus one per edge, plus slack for the root node. -/
def graphFuel (g : DepGraph) : Nat :=
  2 + g.graph.length + (g.graph.map (fun p => p.2.length)).sum

/-- `DependencyGraph._detect_cycle`: DFS from `source` over empty
`visited`/`stack` sets, deterministic via sorted traversal. -/
def detect_cycle (g : DepGraph) (source : String) : Bool :=
  (dfsNode g (graphFuel g) source [] []).1

/-- The `while stack:` loop of `DependencyGraph.get_all_upstream`. The Python
`deque` is popped from the right; the embedding keeps the work stack reversed
so the right end is the list head, and `stack.append` over the sorted
unvisited neighbours becomes prepending their reverse. Fuel counts loop
iterations: each iteration pops one element and at most `1 + total edge count`
elements are ever pushed, so `graphFuel` iterations always suffice. -/
def upstreamLoop (g : DepGraph) : Nat → List String → List String → List String
  | 0, _, visited => visited
  | _+1, [], visited => visited
  | fuel+1, current :: rest, visited =>
      if current ∈ visited then upstreamLoop g fuel rest visited
      else
        let visited' := insertS current visited
        let pushed := (sortL (neighbors g current)).filter (fun dep => dep ∉ visited')
        upstreamLoop g fuel (pushed.reverse ++ rest) visited'

/-- `DependencyGraph.get_all_upstream`: transitive upstream closure of
`source`, excluding `source` itself (`visited - {source}`). -/
def get_all_upstream (g : DepGraph) (source : String) : List String :=
  (upstreamLoop g (graphFuel g) [source] []).filter (fun a => a ≠ source)

/-- Python truthiness of `upstream1.intersection(upstream2)`. -/
def sharesUpstream (g : DepGraph) (src1 src2 : String) : Bool :=
  !(interS (get_all_upstream g src1) (get_all_upstream g src2)).isEmpty

/-- The nested pair loop of `get_independence_score`: returns
`(total_pairs, shared_upstreams)` accumulated over all `i < j` pairs of the
already deduplicated, sorted source list. -/
def indepCounts (g : DepGraph) : List String → Nat × Nat
  | [] => (0, 0)
  | src1 :: rest =>
      let tail := indepCounts g rest
      (tail.1 + rest.length,
       tail.2 + rest.countP (fun src2 => sharesUpstream g src1 src2))

/-- `DependencyGraph.get_independence_score`: `0.0` for an empty list, else
`1 − shared_upstreams / total_pairs` over the deduplicated sorted sources
(`1.0` when there are no pairs). -/
def get_independence_score (g : DepGraph) (sources : List String) : ℚ :=
  if sources = [] then 0
  else if (indepCounts g (dedupSort sources)).1 = 0 then 1
  else 1 - ((indepCounts g (dedupSort sources)).2 : ℚ) /
    ((indepCounts g (dedupSort sources)).1 : ℚ)

/-- The engine state: the dependency graph, the truth-vector table keyed by
content hash, and the (engine-owned, graph-shared) audit trail. -/
structure EngineState where
  dependency_graph : DepGraph
  truth_vectors : List (String × TruthVector)
  audit : List AuditRecord
  deriving DecidableEq

/-- `EchonateEpistemicEngine()` fresh state. -/
def emptyEngine : EngineState := ⟨emptyDepGraph, [], []⟩

/-- `DependencyGraph.add_dependency`: ensure all named nodes exist, insert the
edges into all three maps, then run cycle detection rooted at `source`; on a
cycle, log `dependency_cycle_detected` and raise, otherwise log
`dependency_added`. (The source has no rollback of the inserted edges on the
cycle path; the returned state keeps them, exactly as the Python object does.)
`addEdges` is the edge-insertion loop that runs before cycle detection. -/
def addEdges (g0 : DepGraph) (source : String) (depends_on : List String) : DepGraph :=
  depends_on.foldl
    (fun acc dep =>
      { graph := addToVal (ensure_node acc.graph dep) source dep,
        upstream_map := addToVal acc.upstream_map source dep,
        downstream_map := addToVal acc.downstream_map dep source })
    { g0 with graph := ensure_node g0.graph source }

/-- `DependencyGraph.add_dependency` continued: run `addEdges`, then cycle
detection, then log-and-raise or log-and-return. -/
def add_dependency (s : EngineState) (source : String) (depends_on : List String) :
    Except ConstitutionalViolation Unit × EngineState :=
  let g1 := addEdges s.dependency_graph source depends_on
  if detect_cycle g1 source then
    (.error (.dependencyCycle source depends_on),
     { s with dependency_graph := g1,
              audit := s.audit ++ [.dependency_cycle_detected source (sortL depends_on)] })
  else
    (.ok (),
     { s with dependency_graph := g1,
              audit := s.audit ++ [.dependency_added source (sortL depends_on)] })

/-- Hex character for one digit (used by the digest model below). -/
def hexChar (n : Nat) : Char :=
  if n < 10 then Char.ofNat (48 + n) else Char.ofNat (87 + n)

/-- Big-endian digits of a number in base 16, with a fuel bound. -/
def hexDigits : Nat → Nat → List Char
  | 0, _ => []
  | _+1, 0 => []
  | fuel+1, n => hexDigits fuel (n / 16) ++ [hexChar (n % 16)]

/-- Modelled from the spec: `hashlib.sha256(content.encode()).hexdigest()` is
a "deterministic fingerprint (content-addressed identity) of the observed
content". The SHA-256 compression itself is Python standard-library code
outside this repository; what the engine relies on — and what the claims
consume — is only that the digest is a fixed pure function of the content
string, so it is modelled as a concrete deterministic hex digest over the
content's code points. -/
def sha256_hexdigest (content : String) : String :=
  String.mk
    (hexDigits 16
      (content.data.foldl (fun acc c => (acc * 131 + c.toNat) % 1000000007) 7))

/-- `EchonateEpistemicEngine._normalize_confidence`:
`max(c_min, min(c_max, confidence))`. -/
def normalize_confidence (confidence : ℚ) : ℚ :=
  max confidence_range.1 (min confidence_range.2 confidence)

/-- `TruthVector.is_consensus` property. -/
def is_consensus (tv : TruthVector) : Bool :=
  decide (3 ≤ tv.sources.length) && decide (tv.contradiction_score < 0.3)

/-- `TruthVector.requires_investigation` property. -/
def requires_investigation (tv : TruthVector) : Bool :=
  (decide (0.7 < tv.contradiction_score) && decide (0.5 < tv.confidence))
    || decide (tv.epistemic_state = EpistemicState.ANOMALOUS)

/-- The vector literal `EchonateEpistemicEngine.create_truth_vector` builds:
content hash of the content, normalized confidence, singleton source set,
lineage `["OBSERVATION", source]`. (Its `__post_init__` runs
`_enforce_invariants` before anything is stored or logged; the
empty-lineage default never fires since the engine passes a nonempty one.) -/
def createdTV (content source : String) (confidence : ℚ) : TruthVector :=
  { content_hash := sha256_hexdigest content
    sources := [source]
    lineage := ["OBSERVATION", source]
    confidence := normalize_confidence confidence
    contradiction_score := 0
    epistemic_state := .RAW_OBSERVATION
    metadata := [("content", content)] }

/-- `EchonateEpistemicEngine.create_truth_vector` continued: build
`createdTV`, store it under its content hash, log `truth_created`. -/
def create_truth_vector (s : EngineState) (content source : String) (confidence : ℚ) :
    Except ConstitutionalViolation TruthVector × EngineState :=
  let tv := createdTV content source confidence
  match enforce_invariants tv with
  | .error e => (.error e, s)
  | .ok _ =>
      (.ok tv,
       { s with truth_vectors := updateA s.truth_vectors tv.content_hash tv,
                audit := s.audit ++
                  [.truth_created tv.content_hash source tv.confidence] })

/-- The mutation block of `EchonateEpistemicEngine.corroborate`: add the
source to the set, append the lineage token, reclassify to CORROBORATED at
`len(sources) >= 3`, recompute independence over `list(tv.sources)` and
adjust confidence through `_normalize_confidence`. Returns the mutated
vector together with the independence value (which the success path logs). -/
def corroborateCalc (g : DepGraph) (tv : TruthVector) (new_source : String) :
    TruthVector × ℚ :=
  let sources' := insertS new_source tv.sources
  let state' := if 3 ≤ sources'.length then EpistemicState.CORROBORATED
                else tv.epistemic_state
  let independence := get_independence_score g sources'
  ({ tv with
      sources := sources'
      lineage := tv.lineage ++ ["CORROBORATION:" ++ new_source]
      epistemic_state := state'
      confidence := normalize_confidence (tv.confidence + independence * 0.2) },
   independence)

/-- `EchonateEpistemicEngine.corroborate`. Unknown hash: returns `None` with
no state change. Otherwise the stored vector is mutated in place — the update
is visible in the post-state even when `_enforce_invariants` raises right
after it — and only on success is a `truth_corroborated` event appended. -/
def corroborate (s : EngineState) (content_hash new_source : String) :
    Except ConstitutionalViolation (Option TruthVector) × EngineState :=
  match lookupA s.truth_vectors content_hash with
  | none => (.ok none, s)
  | some tv =>
      let c := corroborateCalc s.dependency_graph tv new_source
      let s' := { s with truth_vectors := updateA s.truth_vectors content_hash c.1 }
      match enforce_invariants c.1 with
      | .error e => (.error e, s')
      | .ok _ =>
          (.ok (some c.1),
           { s' with audit := s'.audit ++
               [.truth_corroborated content_hash new_source c.2 c.1.confidence
                  c.1.epistemic_state] })

/-- The mutation block of `EchonateEpistemicEngine.flag_contradiction`: clamp
the score into the contradiction range (input-side normalization), store it,
and set the state to DISPUTED only when the clamped score exceeds `0.7`,
otherwise leave the state as it was. -/
def flaggedTV (tv : TruthVector) (contradiction_score : ℚ) : TruthVector :=
  let score := max contradiction_range.1 (min contradiction_range.2 contradiction_score)
  { tv with
    contradiction_score := score
    epistemic_state := if 0.7 < score then EpistemicState.DISPUTED
                       else tv.epistemic_state }

/-- `EchonateEpistemicEngine.flag_contradiction`. Unknown hash: no-op. The
mutation (`flaggedTV`) is again visible in the post-state even if the
invariant check raises; only on success is `truth_contradiction` logged. -/
def flag_contradiction (s : EngineState) (content_hash : String)
    (contradiction_score : ℚ) :
    Except ConstitutionalViolation Unit × EngineState :=
  match lookupA s.truth_vectors content_hash with
  | none => (.ok (), s)
  | some tv =>
      let tv' := flaggedTV tv contradiction_score
      let s' := { s with truth_vectors := updateA s.truth_vectors content_hash tv' }
      match enforce_invariants tv' with
      | .error e => (.error e, s')
      | .ok _ =>
          (.ok (), { s' with audit := s'.audit ++
              [.truth_contradiction content_hash tv'.contradiction_score
                 tv'.epistemic_state] })

/-- The `truth_vector` summary block `validate_wealth_opportunity` attaches to
the enriched copy of its input. -/
structure TruthVectorSummary where
  content_hash : String
  sources : List String
  confidence : ℚ
  epistemic_state : EpistemicState
  is_consensus : Bool
  requires_investigation : Bool
  deriving DecidableEq

/-- Modelled from the spec: `json.dumps(opportunity, sort_keys=True)`
"deterministically serializes the record (stable key ordering)". The JSON
encoder is Python standard-library code outside this repository; it is
modelled as a fixed deterministic serialization of the key-sorted pairs
(opportunity records are modelled as string-to-string mappings, which covers
everything the engine reads from them). -/
def json_dumps_sorted (opportunity : List (String × String)) : String :=
  String.intercalate ","
    ((sortL (opportunity.map Prod.fst)).map
      (fun k => k ++ "=" ++ (lookupA opportunity k).getD ""))

/-- `EchonateEpistemicEngine.validate_wealth_opportunity`: serialize the
record, read its `source` and `confidence` labels, map the label through
`{"LOW": 0.3, "MEDIUM": 0.5, "HIGH": 0.8}` with default `0.5`, create a truth
vector from it, log `opportunity_validated`, and return the enriched copy
(the original pairs plus the `truth_vector` summary; the input mapping itself
is not mutated). -/
def validate_wealth_opportunity (s : EngineState) (opportunity : List (String × String)) :
    Except ConstitutionalViolation (List (String × String) × TruthVectorSummary) ×
      EngineState :=
  let content := json_dumps_sorted opportunity
  let source := (lookupA opportunity "source").getD "UNKNOWN"
  let confidence_label := (lookupA opportunity "confidence").getD "MEDIUM"
  let confidence_float : ℚ :=
    if confidence_label = "LOW" then 0.3
    else if confidence_label = "MEDIUM" then 0.5
    else if confidence_label = "HIGH" then 0.8
    else 0.5
  match create_truth_vector s content source confidence_float with
  | (.error e, s1) => (.error e, s1)
  | (.ok tv, s1) =>
      (.ok (opportunity,
        { content_hash := tv.content_hash
          sources := sortL tv.sources
          confidence := tv.confidence
          epistemic_state := tv.epistemic_state
          is_consensus := is_consensus tv
          requires_investigation := requires_investigation tv }),
       { s1 with audit := s1.audit ++
           [.opportunity_validated tv.content_hash source tv.confidence
              tv.epistemic_state] })

theorem normalize_confidence_lower (c : ℚ) :
    confidence_range.1 ≤ normalize_confidence c := le_max_left _ _

theorem normalize_confidence_upper (c : ℚ) :
    normalize_confidence c ≤ confidence_range.2 := by
  apply max_le
  · simp [confidence_range]
  · exact min_le_left _ _

theorem indepCounts_shared_le_total (g : DepGraph) (l : List String) :
    (indepCounts g l).2 ≤ (indepCounts g l).1 := by
  induction l with
  | nil => simp [indepCounts]
  | cons x rest ih =>
      simp only [indepCounts]
      exact Nat.add_le_add ih (List.countP_le_length _)

theorem independence_nonneg (g : DepGraph) (l : List String) :
    0 ≤ get_independence_score g l := by
  unfold get_independence_score
  split_ifs with h1 h2
  · exact le_refl 0
  · exact zero_le_one
  · have hle := indepCounts_shared_le_total g (dedupSort l)
    have hpos : (0 : ℚ) < ((indepCounts g (dedupSort l)).1 : ℚ) := by
      exact_mod_cast Nat.pos_of_ne_zero h2
    have hdiv : ((indepCounts g (dedupSort l)).2 : ℚ) /
        ((indepCounts g (dedupSort l)).1 : ℚ) ≤ 1 := by
      rw [div_le_one hpos]
      exact_mod_cast hle
    linarith

theorem normalize_confidence_eq_min (c : ℚ) (h : 0 ≤ c) :
    normalize_confidence c = min 1 c := by
  unfold normalize_confidence
  simp only [confidence_range]
  exact max_eq_right (le_min zero_le_one h)

theorem corroborate_not_found (s : EngineState) (h src : String)
    (hl : lookupA s.truth_vectors h = none) :
    corroborate s h src = (.ok none, s) := by
  simp [corroborate, hl]

theorem corroborate_found_table (s : EngineState) (h src : String) (tv : TruthVector)
    (hl : lookupA s.truth_vectors h = some tv) :
    (corroborate s h src).2.truth_vectors =
      updateA s.truth_vectors h (corroborateCalc s.dependency_graph tv src).1 := by
  simp only [corroborate, hl]
  cases henf : enforce_invariants (corroborateCalc s.dependency_graph tv src).1 <;> simp

theorem corroborate_found_lookup (s : EngineState) (h src : String) (tv : TruthVector)
    (hl : lookupA s.truth_vectors h = some tv) :
    lookupA (corroborate s h src).2.truth_vectors h =
      some (corroborateCalc s.dependency_graph tv src).1 := by
  rw [corroborate_found_table s h src tv hl, lookupA_updateA_self]

theorem corroborate_found_error (s : EngineState) (h src : String) (tv : TruthVector)
    (e : ConstitutionalViolation)
    (hl : lookupA s.truth_vectors h = some tv)
    (henf : enforce_invariants (corroborateCalc s.dependency_graph tv src).1 = .error e) :
    corroborate s h src =
      (.error e,
       { s with truth_vectors :=
           updateA s.truth_vectors h (corroborateCalc s.dependency_graph tv src).1 }) := by
  simp [corroborate, hl, henf]

theorem corroborate_found_ok (s : EngineState) (h src : String) (tv : TruthVector)
    (hl : lookupA s.truth_vectors h = some tv)
    (henf : enforce_invariants (corroborateCalc s.dependency_graph tv src).1 = .ok ()) :
    corroborate s h src =
      (.ok (some (corroborateCalc s.dependency_graph tv src).1),
       { s with
          truth_vectors :=
            updateA s.truth_vectors h (corroborateCalc s.dependency_graph tv src).1,
          audit := s.audit ++
            [.truth_corroborated h src (corroborateCalc s.dependency_graph tv src).2
               (corroborateCalc s.dependency_graph tv src).1.confidence
               (corroborateCalc s.dependency_graph tv src).1.epistemic_state] }) := by
  simp [corroborate, hl, henf]

theorem corroborate_error_audit (s : EngineState) (h src : String)
    (e : ConstitutionalViolation)
    (herr : (corroborate s h src).1 = .error e) :
    (corroborate s h src).2.audit = s.audit := by
  cases hl : lookupA s.truth_vectors h with
  | none => rw [corroborate_not_found s h src hl]
  | some tv =>
      cases henf : enforce_invariants (corroborateCalc s.dependency_graph tv src).1 with
      | error e' => rw [corroborate_found_error s h src tv e' hl henf]
      | ok u =>
          cases u
          rw [corroborate_found_ok s h src tv hl henf] at herr
          exact absurd herr (by simp)

theorem flag_not_found (s : EngineState) (h : String) (k : ℚ)
    (hl : lookupA s.truth_vectors h = none) :
    flag_contradiction s h k = (.ok (), s) := by
  simp [flag_contradiction, hl]

theorem flag_found_table (s : EngineState) (h : String) (k : ℚ) (tv : TruthVector)
    (hl : lookupA s.truth_vectors h = some tv) :
    (flag_contradiction s h k).2.truth_vectors =
      updateA s.truth_vectors h (flaggedTV tv k) := by
  simp only [flag_contradiction, hl]
  cases henf : enforce_invariants (flaggedTV tv k) <;> simp [henf]

theorem flag_found_lookup (s : EngineState) (h : String) (k : ℚ) (tv : TruthVector)
    (hl : lookupA s.truth_vectors h = some tv) :
    lookupA (flag_contradiction s h k).2.truth_vectors h = some (flaggedTV tv k) := by
  rw [flag_found_table s h k tv hl, lookupA_updateA_self]

theorem flag_found_ok (s : EngineState) (h : String) (k : ℚ) (tv : TruthVector)
    (hl : lookupA s.truth_vectors h = some tv)
    (henf : enforce_invariants (flaggedTV tv k) = .ok ()) :
    flag_contradiction s h k =
      (.ok (),
       { s with
          truth_vectors := updateA s.truth_vectors h (flaggedTV tv k),
          audit := s.audit ++
            [.truth_contradiction h (flaggedTV tv k).contradiction_score
               (flaggedTV tv k).epistemic_state] }) := by
  simp [flag_contradiction, hl, henf]

theorem flag_found_error (s : EngineState) (h : String) (k : ℚ) (tv : TruthVector)
    (e : ConstitutionalViolation)
    (hl : lookupA s.truth_vectors h = some tv)
    (henf : enforce_invariants (flaggedTV tv k) = .error e) :
    flag_contradiction s h k =
      (.error e,
       { s with truth_vectors := updateA s.truth_vectors h (flaggedTV tv k) }) := by
  simp [flag_contradiction, hl, henf]

theorem createdTV_confidence (content source : String) (k : ℚ) :
    (createdTV content source k).confidence = normalize_confidence k := rfl

theorem createdTV_contradiction (content source : String) (k : ℚ) :
    (createdTV content source k).contradiction_score = 0 := rfl

theorem createdTV_sources (content source : String) (k : ℚ) :
    (createdTV content source k).sources = [source] := rfl

theorem createdTV_hash (content source : String) (k : ℚ) :
    (createdTV content source k).content_hash = sha256_hexdigest content := rfl

theorem createdTV_bounded (content source : String) (k : ℚ) :
    (createdTV content source k).bounded := by
  unfold TruthVector.bounded
  rw [createdTV_confidence, createdTV_contradiction, createdTV_sources]
  refine ⟨normalize_confidence_lower k, normalize_confidence_upper k, ?_, ?_, ?_⟩
  · norm_num [contradiction_range]
  · norm_num [contradiction_range]
  · norm_num [max_sources]

theorem create_truth_vector_eq (s : EngineState) (content source : String) (k : ℚ) :
    create_truth_vector s content source k =
      (.ok (createdTV content source k),
       { s with
          truth_vectors := updateA s.truth_vectors
            (createdTV content source k).content_hash (createdTV content source k),
          audit := s.audit ++
            [.truth_created (createdTV content source k).content_hash source
               (createdTV content source k).confidence] }) := by
  have henf : enforce_invariants (createdTV content source k) = .ok () :=
    (enforce_invariants_ok_iff _).mpr (createdTV_bounded content source k)
  unfold create_truth_vector
  dsimp only
  rw [henf]

theorem corroborateCalc_sources (g : DepGraph) (tv : TruthVector) (src : String) :
    (corroborateCalc g tv src).1.sources = insertS src tv.sources := rfl

theorem corroborateCalc_lineage (g : DepGraph) (tv : TruthVector) (src : String) :
    (corroborateCalc g tv src).1.lineage =
      tv.lineage ++ ["CORROBORATION:" ++ src] := rfl

theorem corroborateCalc_confidence (g : DepGraph) (tv : TruthVector) (src : String) :
    (corroborateCalc g tv src).1.confidence =
      normalize_confidence
        (tv.confidence + get_independence_score g (insertS src tv.sources) * 0.2) := rfl

theorem corroborateCalc_state (g : DepGraph) (tv : TruthVector) (src : String) :
    (corroborateCalc g tv src).1.epistemic_state =
      if 3 ≤ (insertS src tv.sources).length then EpistemicState.CORROBORATED
      else tv.epistemic_state := rfl

theorem corroborateCalc_contradiction (g : DepGraph) (tv : TruthVector) (src : String) :
    (corroborateCalc g tv src).1.contradiction_score = tv.contradiction_score := rfl

theorem clamp_contradiction_eval (k : ℚ) (h0 : 0 ≤ k) (h1 : k ≤ 1) :
    max contradiction_range.1 (min contradiction_range.2 k) = k := by
  simp only [contradiction_range]
  rw [min_eq_right h1, max_eq_right h0]

theorem clamp_contradiction_lower (k : ℚ) :
    contradiction_range.1 ≤ max contradiction_range.1 (min contradiction_range.2 k) :=
  le_max_left _ _

theorem clamp_contradiction_upper (k : ℚ) :
    max contradiction_range.1 (min contradiction_range.2 k) ≤ contradiction_range.2 := by
  apply max_le
  · norm_num [contradiction_range]
  · exact min_le_left _ _

theorem flaggedTV_confidence (tv : TruthVector) (k : ℚ) :
    (flaggedTV tv k).confidence = tv.confidence := rfl

theorem flaggedTV_sources (tv : TruthVector) (k : ℚ) :
    (flaggedTV tv k).sources = tv.sources := rfl

theorem flaggedTV_score (tv : TruthVector) (k : ℚ) :
    (flaggedTV tv k).contradiction_score =
      max contradiction_range.1 (min contradiction_range.2 k) := rfl

theorem flaggedTV_state_low (tv : TruthVector) (k : ℚ)
    (hk : ¬ ((0.7 : ℚ) < max contradiction_range.1 (min contradiction_range.2 k))) :
    (flaggedTV tv k).epistemic_state = tv.epistemic_state := by
  unfold flaggedTV
  dsimp only
  rw [if_neg hk]

theorem flaggedTV_state_high (tv : TruthVector) (k : ℚ)
    (hk : (0.7 : ℚ) < max contradiction_range.1 (min contradiction_range.2 k)) :
    (flaggedTV tv k).epistemic_state = EpistemicState.DISPUTED := by
  unfold flaggedTV
  dsimp only
  rw [if_pos hk]

theorem flaggedTV_bounded (tv : TruthVector) (k : ℚ) (hb : tv.bounded) :
    (flaggedTV tv k).bounded := by
  unfold TruthVector.bounded
  rw [flaggedTV_confidence, flaggedTV_sources, flaggedTV_score]
  exact ⟨hb.1, hb.2.1, clamp_contradiction_lower k, clamp_contradiction_upper k,
    hb.2.2.2.2⟩

/-- C8: for every content string `c`, engine states, source and confidence
arguments, `create_truth_vector` succeeds and returns vectors whose
`content_hash` coincide and equal the digest of the content alone — the
content hash is a pure, deterministic function of the content only,
independent of the source and confidence arguments. -/
theorem C8_content_hash_pure (st₁ st₂ : EngineState) (c s₁ s₂ : String) (k₁ k₂ : ℚ) :
    ∃ tv₁ tv₂ : TruthVector,
      (create_truth_vector st₁ c s₁ k₁).1 = .ok tv₁ ∧
      (create_truth_vector st₂ c s₂ k₂).1 = .ok tv₂ ∧
      tv₁.content_hash = tv₂.content_hash ∧
      tv₁.content_hash = sha256_hexdigest c := by
  refine ⟨createdTV c s₁ k₁, createdTV c s₂ k₂, ?_, ?_, rfl, rfl⟩
  · rw [create_truth_vector_eq]
  · rw [create_truth_vector_eq]

/-- C6: `corroborate` on an unknown hash returns a null result and changes
nothing; on a stored vector it adds the new source to the source set, appends
exactly one lineage entry, reclassifies to CORROBORATED once the source count
is at least 3, and sets the confidence to
`min(1.0, old_confidence + get_independence_score(sources) * 0.2)`. -/
theorem C6_corroborate_semantics (s : EngineState) (h src : String) :
    (lookupA s.truth_vectors h = none → corroborate s h src = (.ok none, s)) ∧
    (∀ tv : TruthVector, lookupA s.truth_vectors h = some tv → 0 ≤ tv.confidence →
      ∃ tv' : TruthVector,
        lookupA (corroborate s h src).2.truth_vectors h = some tv' ∧
        tv'.sources = insertS src tv.sources ∧
        tv'.lineage = tv.lineage ++ ["CORROBORATION:" ++ src] ∧
        (3 ≤ tv'.sources.length → tv'.epistemic_state = .CORROBORATED) ∧
        tv'.confidence = min 1 (tv.confidence +
          get_independence_score s.dependency_graph (insertS src tv.sources) * 0.2)) := by
  constructor
  · exact corroborate_not_found s h src
  · intro tv hl hc
    refine ⟨(corroborateCalc s.dependency_graph tv src).1,
      corroborate_found_lookup s h src tv hl,
      corroborateCalc_sources s.dependency_graph tv src,
      corroborateCalc_lineage s.dependency_graph tv src, ?_, ?_⟩
    · intro h3
      rw [corroborateCalc_sources] at h3
      rw [corroborateCalc_state, if_pos h3]
    · rw [corroborateCalc_confidence, normalize_confidence_eq_min]
      exact add_nonneg hc (mul_nonneg (independence_nonneg _ _) (by norm_num))

/-- Shared concrete witness state: a fresh engine after
`create_truth_vector("c", "X", 0.5)`. -/
def witState : EngineState := (create_truth_vector emptyEngine "c" "X" 0.5).2

/-- The content hash the witness state stores its vector under. -/
def witHash : String := sha256_hexdigest "c"

theorem witState_lookup :
    lookupA witState.truth_vectors witHash = some (createdTV "c" "X" 0.5) := by
  unfold witState
  rw [create_truth_vector_eq]
  exact lookupA_updateA_self _ _ _

theorem C6_corroborate_semantics_witness :
    ∃ tv' : TruthVector,
      lookupA (corroborate witState witHash "Y").2.truth_vectors witHash = some tv' ∧
      tv'.sources = insertS "Y" (createdTV "c" "X" 0.5).sources ∧
      tv'.lineage = (createdTV "c" "X" 0.5).lineage ++ ["CORROBORATION:" ++ "Y"] ∧
      (3 ≤ tv'.sources.length → tv'.epistemic_state = .CORROBORATED) ∧
      tv'.confidence = min 1 ((createdTV "c" "X" 0.5).confidence +
        get_independence_score witState.dependency_graph
          (insertS "Y" (createdTV "c" "X" 0.5).sources) * 0.2) :=
  (C6_corroborate_semantics witState witHash "Y").2 (createdTV "c" "X" 0.5)
    witState_lookup (normalize_confidence_lower 0.5)

/-- C9: two `corroborate` calls with the same source on the same stored
vector leave its source set equal to a single insertion and its cardinality
at most one above the original: `sources` is a set, not a multiset. -/
theorem C9_corroborate_idempotent_sources (s : EngineState) (h src : String)
    (tv : TruthVector) (hl : lookupA s.truth_vectors h = some tv) :
    ∃ tv₂ : TruthVector,
      lookupA (corroborate (corroborate s h src).2 h src).2.truth_vectors h = some tv₂ ∧
      tv₂.sources = insertS src tv.sources ∧
      tv₂.sources.length ≤ tv.sources.length + 1 := by
  have h1 := corroborate_found_lookup s h src tv hl
  have h2 := corroborate_found_lookup (corroborate s h src).2 h src _ h1
  refine ⟨_, h2, ?_, ?_⟩
  · rw [corroborateCalc_sources, corroborateCalc_sources, insertS_idem]
  · rw [corroborateCalc_sources, corroborateCalc_sources, insertS_idem]
    exact length_insertS_le src tv.sources

theorem C9_corroborate_idempotent_sources_witness :
    ∃ tv₂ : TruthVector,
      lookupA (corroborate (corroborate witState witHash "Y").2 witHash "Y").2.truth_vectors
        witHash = some tv₂ ∧
      tv₂.sources = insertS "Y" (createdTV "c" "X" 0.5).sources ∧
      tv₂.sources.length ≤ (createdTV "c" "X" 0.5).sources.length + 1 :=
  C9_corroborate_idempotent_sources witState witHash "Y" (createdTV "c" "X" 0.5)
    witState_lookup

/-- C10: every `corroborate` call on a stored vector whose confidence is
within the upper bound leaves the stored confidence greater than or equal to
its previous value — including when the source is already present — because
the independence score is nonnegative and the adjusted value is re-clamped
into the confidence range. -/
theorem C10_confidence_monotone (s : EngineState) (h src : String) (tv : TruthVector)
    (hl : lookupA s.truth_vectors h = some tv) (hub : tv.confidence ≤ 1) :
    ∃ tv' : TruthVector,
      lookupA (corroborate s h src).2.truth_vectors h = some tv' ∧
      tv.confidence ≤ tv'.confidence := by
  refine ⟨_, corroborate_found_lookup s h src tv hl, ?_⟩
  rw [corroborateCalc_confidence]
  unfold normalize_confidence
  have hind : (0 : ℚ) ≤
      get_independence_score s.dependency_graph (insertS src tv.sources) :=
    independence_nonneg _ _
  have hx : tv.confidence ≤ tv.confidence +
      get_independence_score s.dependency_graph (insertS src tv.sources) * 0.2 := by
    have : (0 : ℚ) ≤
        get_independence_score s.dependency_graph (insertS src tv.sources) * 0.2 :=
      mul_nonneg hind (by norm_num)
    linarith
  exact le_trans (le_min hub hx) (le_max_right _ _)

theorem C10_confidence_monotone_witness :
    ∃ tv' : TruthVector,
      lookupA (corroborate witState witHash "X").2.truth_vectors witHash = some tv' ∧
      (createdTV "c" "X" 0.5).confidence ≤ tv'.confidence :=
  C10_confidence_monotone witState witHash "X" (createdTV "c" "X" 0.5)
    witState_lookup (normalize_confidence_upper 0.5)

/-- The pair enumeration of `get_independence_score`'s nested loops, written
as a list: all pairs `(l[i], l[j])` with `i < j`, in loop order. -/
def listPairs {α : Type} : List α → List (α × α)
  | [] => []
  | x :: rest => rest.map (fun y => (x, y)) ++ listPairs rest

theorem indepCounts_eq_pairs (g : DepGraph) (l : List String) :
    indepCounts g l =
      ((listPairs l).length,
       (listPairs l).countP (fun p => sharesUpstream g p.1 p.2)) := by
  induction l with
  | nil => rfl
  | cons x rest ih =>
      simp only [indepCounts, listPairs, ih, List.length_append, List.length_map,
        List.countP_append, List.countP_map]
      refine Prod.ext ?_ ?_
      · simp [Nat.add_comm]
      · simp only [Function.comp]
        exact Nat.add_comm _ _

/-- Example graph: `P` and `Q` both depend on the single upstream `Z`. -/
def gShared : DepGraph := ⟨[("P", ["Z"]), ("Z", []), ("Q", ["Z"])], [], []⟩

/-- Example graph: `X` and `Y` have the disjoint upstream closures
`{U}` and `{V}`. -/
def gDisjoint : DepGraph := ⟨[("X", ["U"]), ("U", []), ("Y", ["V"]), ("V", [])], [], []⟩

/-- C3 counterexample: `get_independence_score` of the empty source list is
`0.0`, not the `1.0` the claim asserts for a list with zero distinct
sources. -/
theorem C3_counterexample_empty_sources :
    get_independence_score emptyDepGraph [] = 0 ∧ (0 : ℚ) ≠ 1 := by
  refine ⟨rfl, by norm_num⟩

/-- C3 amended: the empty source list scores `0.0` (not `1.0`); one distinct
source scores `1.0`; every nonempty list scores `1 − (number of distinct
pairs whose upstream closures intersect) / (number of distinct pairs)` over
the deduplicated, sorted sources (with the `0/0 = 0` division convention
covering the one-source case); two sources with disjoint closures score
`1.0`, and two sources sharing their only upstream score `0.0`. -/
theorem C3_independence_score_amended :
    (∀ g : DepGraph, get_independence_score g [] = 0) ∧
    (∀ (g : DepGraph) (x : String), get_independence_score g [x] = 1) ∧
    (∀ (g : DepGraph) (sources : List String), sources ≠ [] →
      get_independence_score g sources =
        1 - ((listPairs (dedupSort sources)).countP
              (fun p => sharesUpstream g p.1 p.2) : ℚ) /
            ((listPairs (dedupSort sources)).length : ℚ)) ∧
    get_independence_score gDisjoint ["X", "Y"] = 1 ∧
    get_independence_score gShared ["P", "Q"] = 0 := by
  refine ⟨fun g => rfl, fun g x => rfl, ?_, ?_, ?_⟩
  · intro g sources hne
    unfold get_independence_score
    rw [if_neg hne, indepCounts_eq_pairs]
    by_cases h0 : (listPairs (dedupSort sources)).length = 0
    · have hcp : (listPairs (dedupSort sources)).countP
          (fun p => sharesUpstream g p.1 p.2) = 0 :=
        Nat.le_zero.mp (h0 ▸ List.countP_le_length _)
      rw [if_pos h0]
      rw [hcp, h0]
      norm_num
    · rw [if_neg h0]
  · unfold get_independence_score
    rw [if_neg (show ¬ (["X", "Y"] : List String) = [] from by decide),
      show indepCounts gDisjoint (dedupSort ["X", "Y"]) = (1, 0) from by decide]
    norm_num
  · unfold get_independence_score
    rw [if_neg (show ¬ (["P", "Q"] : List String) = [] from by decide),
      show indepCounts gShared (dedupSort ["P", "Q"]) = (1, 1) from by decide]
    norm_num

theorem C3_independence_score_amended_witness :
    get_independence_score gShared ["P", "Q"] =
      1 - ((listPairs (dedupSort ["P", "Q"])).countP
            (fun p => sharesUpstream gShared p.1 p.2) : ℚ) /
          ((listPairs (dedupSort ["P", "Q"])).length : ℚ) :=
  C3_independence_score_amended.2.2.1 gShared ["P", "Q"] (by decide)

/-- C4 counterexample: after `flag_contradiction(h, 0.9)` the stored vector
is DISPUTED; a subsequent `flag_contradiction(h, 0.2)` — a score at most
0.7 — leaves it still classified DISPUTED, contradicting the claim that it
is then no longer DISPUTED. -/
theorem C4_counterexample_disputed_latched :
    ∃ tv₁ tv₂ : TruthVector,
      lookupA (flag_contradiction witState witHash 0.9).2.truth_vectors witHash =
        some tv₁ ∧
      tv₁.epistemic_state = .DISPUTED ∧
      (0.2 : ℚ) ≤ 0.7 ∧
      lookupA (flag_contradiction (flag_contradiction witState witHash 0.9).2 witHash
        0.2).2.truth_vectors witHash = some tv₂ ∧
      tv₂.epistemic_state = .DISPUTED := by
  have h1 := flag_found_lookup witState witHash 0.9 _ witState_lookup
  have hst1 : (flaggedTV (createdTV "c" "X" 0.5) 0.9).epistemic_state = .DISPUTED :=
    flaggedTV_state_high _ _
      (by rw [clamp_contradiction_eval 0.9 (by norm_num) (by norm_num)]; norm_num)
  have h2 := flag_found_lookup (flag_contradiction witState witHash 0.9).2 witHash 0.2 _ h1
  have hst2 : (flaggedTV (flaggedTV (createdTV "c" "X" 0.5) 0.9) 0.2).epistemic_state =
      .DISPUTED := by
    rw [flaggedTV_state_low _ _
      (by rw [clamp_contradiction_eval 0.2 (by norm_num) (by norm_num)]; norm_num), hst1]
  exact ⟨_, _, h1, hst1, by norm_num, h2, hst2⟩

/-- C4 amended: `flag_contradiction` with a score at most 0.7 updates the
contradiction score but leaves the epistemic state exactly as it was — the
state is latched, not recomputed, so a DISPUTED vector stays DISPUTED under
such a call (it can only be overwritten by a clamped score above 0.7, or by
`corroborate` reaching three sources). -/
theorem C4_flag_state_latched (s : EngineState) (h : String) (k : ℚ)
    (tv : TruthVector) (hl : lookupA s.truth_vectors h = some tv)
    (hk : k ≤ 0.7) :
    ∃ tv' : TruthVector,
      lookupA (flag_contradiction s h k).2.truth_vectors h = some tv' ∧
      tv'.epistemic_state = tv.epistemic_state ∧
      tv'.contradiction_score =
        max contradiction_range.1 (min contradiction_range.2 k) := by
  refine ⟨_, flag_found_lookup s h k tv hl, ?_, flaggedTV_score tv k⟩
  apply flaggedTV_state_low
  have hle : max contradiction_range.1 (min contradiction_range.2 k) ≤ 0.7 := by
    apply max_le
    · norm_num [contradiction_range]
    · exact le_trans (min_le_right _ _) hk
  exact not_lt.mpr hle

theorem C4_flag_state_latched_witness :
    ∃ tv' : TruthVector,
      lookupA (flag_contradiction (flag_contradiction witState witHash 0.9).2 witHash
        0.2).2.truth_vectors witHash = some tv' ∧
      tv'.epistemic_state = (flaggedTV (createdTV "c" "X" 0.5) 0.9).epistemic_state ∧
      tv'.contradiction_score =
        max contradiction_range.1 (min contradiction_range.2 0.2) :=
  C4_flag_state_latched (flag_contradiction witState witHash 0.9).2 witHash 0.2
    (flaggedTV (createdTV "c" "X" 0.5) 0.9)
    (flag_found_lookup witState witHash 0.9 _ witState_lookup) (by norm_num)

/-- Engine state with dependency edges `A→B` and `B→C`, both added
successfully. -/
def chainState : EngineState :=
  (add_dependency (add_dependency emptyEngine "A" ["B"]).2 "B" ["C"]).2

/-- C1 is violated by the code: adding the cycle-closing edge `C→A` on top of
`A→B`, `B→C` does log `dependency_cycle_detected` and raise
ConstitutionalViolation, but the edges just added are NOT revoked — `C`'s
edge set changes from `{}` to `{A}` in `graph` and `upstream_map` — so the
graph's edge set after the call differs from its pre-call state and partial
(cyclic) graph state persists. -/
theorem C1_cycle_edges_not_revoked :
    (add_dependency chainState "C" ["A"]).1 =
      .error (.dependencyCycle "C" ["A"]) ∧
    (add_dependency chainState "C" ["A"]).2.audit =
      chainState.audit ++ [.dependency_cycle_detected "C" ["A"]] ∧
    lookupA chainState.dependency_graph.graph "C" = some [] ∧
    lookupA (add_dependency chainState "C" ["A"]).2.dependency_graph.graph "C" =
      some ["A"] ∧
    lookupA (add_dependency chainState "C" ["A"]).2.dependency_graph.upstream_map
      "C" = some ["A"] ∧
    (add_dependency chainState "C" ["A"]).2.dependency_graph ≠
      chainState.dependency_graph := by
  decide

/-- 1024 pairwise distinct source names (the strings `""`, `"a"`, `"aa"`,
...): a source set already at the constitution's `max_sources` bound. Such a
set is reachable by a `create_truth_vector` followed by 1023 successful
corroborations. -/
def manySources : List String :=
  (List.range 1024).map (fun i => String.mk (List.replicate i 'a'))

theorem manySources_length : manySources.length = 1024 := by
  simp [manySources]

theorem manySources_nodup : manySources.Nodup := by
  apply List.Nodup.map ?_ (List.nodup_range 1024)
  intro a b hab
  have hlen := congrArg (fun s : String => s.data.length) hab
  simpa using hlen

theorem b_not_mem_manySources : "b" ∉ manySources := by
  intro hmem
  simp only [manySources, List.mem_map, List.mem_range] at hmem
  obtain ⟨i, _, hi⟩ := hmem
  have hdata : List.replicate i 'a' = ['b'] := by
    simpa using congrArg String.data hi
  cases i with
  | zero => simp at hdata
  | succ n =>
      rw [List.replicate_succ] at hdata
      have hc : 'a' = 'b' := (List.cons.inj hdata).1
      exact absurd hc (by decide)

/-- A stored truth vector already holding `max_sources` sources. -/
def maxTV : TruthVector :=
  { content_hash := "h"
    sources := manySources
    lineage := ["OBSERVATION", ""]
    confidence := 0.5
    contradiction_score := 0
    epistemic_state := .RAW_OBSERVATION
    metadata := [("content", "c")] }

/-- An engine whose table holds `maxTV` under hash `"h"`. -/
def maxState : EngineState := ⟨emptyDepGraph, [("h", maxTV)], []⟩

theorem maxState_lookup : lookupA maxState.truth_vectors "h" = some maxTV := rfl

/-- The mutated vector `corroborate` stores at the bound-violating call. -/
def maxTVafter : TruthVector :=
  (corroborateCalc maxState.dependency_graph maxTV "b").1

theorem maxTVafter_sources_length : maxTVafter.sources.length = 1025 := by
  unfold maxTVafter
  rw [corroborateCalc_sources, show maxTV.sources = manySources from rfl,
    length_insertS_of_not_mem _ _ b_not_mem_manySources, manySources_length]

theorem maxTVafter_enforce :
    enforce_invariants maxTVafter = .error (.tooManySources 1025) := by
  have hcontra : maxTVafter.contradiction_score = 0 := by
    unfold maxTVafter
    rw [corroborateCalc_contradiction]
    rfl
  have h := enforce_invariants_too_many maxTVafter
    (by unfold maxTVafter; rw [corroborateCalc_confidence]
        exact normalize_confidence_lower _)
    (by unfold maxTVafter; rw [corroborateCalc_confidence]
        exact normalize_confidence_upper _)
    (by rw [hcontra]; norm_num [contradiction_range])
    (by rw [hcontra]; norm_num [contradiction_range])
    (by rw [maxTVafter_sources_length]; norm_num [max_sources])
  rw [maxTVafter_sources_length] at h
  exact h

theorem maxCorroborate_eq :
    corroborate maxState "h" "b" =
      (.error (.tooManySources 1025),
       ⟨maxState.dependency_graph, updateA maxState.truth_vectors "h" maxTVafter,
        maxState.audit⟩) :=
  corroborate_found_error maxState "h" "b" maxTV _ maxState_lookup maxTVafter_enforce

/-- C2 is violated by the code: `corroborate` on a vector already holding the
maximum 1024 sources raises ConstitutionalViolation, but the table is NOT
unchanged — the stored vector keeps the mutated source set (now 1025
entries) and the appended lineage entry, so the failed call leaves partial
mutation behind. -/
theorem C2_partial_mutation_on_violation :
    (corroborate maxState "h" "b").1 = .error (.tooManySources 1025) ∧
    (∃ tv' : TruthVector,
      lookupA (corroborate maxState "h" "b").2.truth_vectors "h" = some tv' ∧
      tv'.sources.length = 1025 ∧
      tv'.lineage = maxTV.lineage ++ ["CORROBORATION:" ++ "b"] ∧
      tv' ≠ maxTV) ∧
    maxTV.sources.length = 1024 := by
  refine ⟨by rw [maxCorroborate_eq], ⟨maxTVafter, ?_, maxTVafter_sources_length,
    corroborateCalc_lineage _ _ _, ?_⟩, manySources_length⟩
  · rw [maxCorroborate_eq]
    exact lookupA_updateA_self _ _ _
  · intro he
    have h1 := maxTVafter_sources_length
    rw [he, show maxTV.sources = manySources from rfl, manySources_length] at h1
    exact absurd h1 (by norm_num)

theorem add_dependency_error_audit (s : EngineState) (source : String)
    (deps : List String) (e : ConstitutionalViolation)
    (herr : (add_dependency s source deps).1 = .error e) :
    (add_dependency s source deps).2.audit =
      s.audit ++ [.dependency_cycle_detected source (sortL deps)] := by
  by_cases hd : detect_cycle (addEdges s.dependency_graph source deps) source
  · simp [add_dependency, hd]
  · simp [add_dependency, hd] at herr

theorem flag_error_audit (s : EngineState) (h : String) (k : ℚ)
    (e : ConstitutionalViolation)
    (herr : (flag_contradiction s h k).1 = .error e) :
    (flag_contradiction s h k).2.audit = s.audit := by
  cases hl : lookupA s.truth_vectors h with
  | none => rw [flag_not_found s h k hl]
  | some tv =>
      cases henf : enforce_invariants (flaggedTV tv k) with
      | error e' => rw [flag_found_error s h k tv e' hl henf]
      | ok u =>
          cases u
          rw [flag_found_ok s h k tv hl henf] at herr
          exact absurd herr (by simp)

/-- C5 counterexample: `corroborate` at the max-sources bound raises
ConstitutionalViolation through `_enforce_invariants`, and NO audit event is
appended before the exception propagates — the audit trail is unchanged
(here: still empty), contradicting the claim that every
ConstitutionalViolation is preceded by an audit event describing it. -/
theorem C5_counterexample_no_audit_on_bound_violation :
    (corroborate maxState "h" "b").1 = .error (.tooManySources 1025) ∧
    (corroborate maxState "h" "b").2.audit = maxState.audit ∧
    maxState.audit = [] := by
  refine ⟨by rw [maxCorroborate_eq], ?_, rfl⟩
  rw [maxCorroborate_eq]

/-- C5 amended: cycle rejection in `add_dependency` does append the
`dependency_cycle_detected` event before the exception propagates, but bound
violations raised by the invariant check inside `corroborate` and
`flag_contradiction` propagate WITHOUT any audit event being appended. -/
theorem C5_audit_on_violation_amended :
    (∀ (s : EngineState) (source : String) (deps : List String)
        (e : ConstitutionalViolation),
      (add_dependency s source deps).1 = .error e →
      (add_dependency s source deps).2.audit =
        s.audit ++ [.dependency_cycle_detected source (sortL deps)]) ∧
    (∀ (s : EngineState) (h src : String) (e : ConstitutionalViolation),
      (corroborate s h src).1 = .error e →
      (corroborate s h src).2.audit = s.audit) ∧
    (∀ (s : EngineState) (h : String) (k : ℚ) (e : ConstitutionalViolation),
      (flag_contradiction s h k).1 = .error e →
      (flag_contradiction s h k).2.audit = s.audit) :=
  ⟨add_dependency_error_audit, corroborate_error_audit, flag_error_audit⟩

theorem C5_audit_on_violation_amended_witness :
    (add_dependency chainState "C" ["A"]).2.audit =
      chainState.audit ++ [.dependency_cycle_detected "C" (sortL ["A"])] :=
  C5_audit_on_violation_amended.1 chainState "C" ["A"]
    (.dependencyCycle "C" ["A"]) (by decide)

/-- Every vector stored in a truth-vector table satisfies the constitution
bounds. -/
def boundedTable (table : List (String × TruthVector)) : Prop :=
  ∀ (h : String) (tv : TruthVector), lookupA table h = some tv → tv.bounded

/-- Every vector stored in the engine's table satisfies the constitution
bounds. -/
def boundedState (s : EngineState) : Prop := boundedTable s.truth_vectors

theorem boundedTable_update (table : List (String × TruthVector)) (k : String)
    (tv : TruthVector) (hb : boundedTable table) (htv : tv.bounded) :
    boundedTable (updateA table k tv) := by
  intro h tv' hl
  rw [lookupA_updateA] at hl
  by_cases hk : k = h
  · rw [if_pos hk] at hl
    cases hl
    exact htv
  · rw [if_neg hk] at hl
    exact hb h tv' hl

theorem emptyEngine_bounded : boundedState emptyEngine := by
  intro h tv hl
  simp [emptyEngine, lookupA] at hl

/-- C7: every engine operation that returns normally leaves every stored
truth vector within the constitution bounds (confidence and contradiction in
`[0, 1]`, at most 1024 sources); out-of-range confidence inputs to
`create_truth_vector` and out-of-range scores to `flag_contradiction` are
normalized into range on the input side and never cause a raise. -/
theorem C7_constitution_bounds :
    (∀ (s : EngineState) (c src : String) (k : ℚ),
      (create_truth_vector s c src k).1 = .ok (createdTV c src k) ∧
      (boundedState s → boundedState (create_truth_vector s c src k).2)) ∧
    (∀ (s : EngineState) (h src : String) (r : Option TruthVector)
        (s' : EngineState),
      corroborate s h src = (.ok r, s') → boundedState s → boundedState s') ∧
    (∀ (s : EngineState) (h : String) (k : ℚ), boundedState s →
      (flag_contradiction s h k).1 = .ok () ∧
      boundedState (flag_contradiction s h k).2) ∧
    (∀ (s : EngineState) (o : List (String × String)), boundedState s →
      (∃ r, (validate_wealth_opportunity s o).1 = .ok r) ∧
      boundedState (validate_wealth_opportunity s o).2) := by
  refine ⟨?_, ?_, ?_, ?_⟩
  · intro s c src k
    rw [create_truth_vector_eq]
    exact ⟨rfl, fun hb => boundedTable_update _ _ _ hb (createdTV_bounded c src k)⟩
  · intro s h src r s' heq hb
    cases hl : lookupA s.truth_vectors h with
    | none =>
        rw [corroborate_not_found s h src hl] at heq
        cases heq
        exact hb
    | some tv =>
        cases henf : enforce_invariants (corroborateCalc s.dependency_graph tv src).1 with
        | error e =>
            rw [corroborate_found_error s h src tv e hl henf] at heq
            exact absurd (congrArg Prod.fst heq) (by simp)
        | ok u =>
            cases u
            rw [corroborate_found_ok s h src tv hl henf] at heq
            have hs' : s' = { s with
                truth_vectors :=
                  updateA s.truth_vectors h (corroborateCalc s.dependency_graph tv src).1,
                audit := s.audit ++
                  [.truth_corroborated h src (corroborateCalc s.dependency_graph tv src).2
                     (corroborateCalc s.dependency_graph tv src).1.confidence
                     (corroborateCalc s.dependency_graph tv src).1.epistemic_state] } :=
              (congrArg Prod.snd heq).symm
            rw [hs']
            exact boundedTable_update _ _ _ hb ((enforce_invariants_ok_iff _).mp henf)
  · intro s h k hb
    cases hl : lookupA s.truth_vectors h with
    | none =>
        rw [flag_not_found s h k hl]
        exact ⟨rfl, hb⟩
    | some tv =>
        have henf : enforce_invariants (flaggedTV tv k) = .ok () :=
          (enforce_invariants_ok_iff _).mpr (flaggedTV_bounded tv k (hb h tv hl))
        rw [flag_found_ok s h k tv hl henf]
        exact ⟨rfl, boundedTable_update _ _ _ hb
          (flaggedTV_bounded tv k (hb h tv hl))⟩
  · intro s o hb
    unfold validate_wealth_opportunity
    dsimp only
    rw [create_truth_vector_eq]
    dsimp only
    exact ⟨⟨_, rfl⟩, boundedTable_update _ _ _ hb (createdTV_bounded _ _ _)⟩

theorem C7_constitution_bounds_witness :
    (create_truth_vector emptyEngine "c" "X" 5).1 = .ok (createdTV "c" "X" 5) ∧
    (flag_contradiction (create_truth_vector emptyEngine "c" "X" 5).2
      (sha256_hexdigest "c") 3).1 = .ok () :=
  ⟨(C7_constitution_bounds.1 emptyEngine "c" "X" 5).1,
   ((C7_constitution_bounds.2.2.1 (create_truth_vector emptyEngine "c" "X" 5).2
      (sha256_hexdigest "c") 3)
     ((C7_constitution_bounds.1 emptyEngine "c" "X" 5).2 emptyEngine_bounded)).1⟩
